import Mathlib

/-!
Shallow embedding of `bittensor/extrinsics/registration.py`.

External collaborators (chain client, solver, console, clock) are modelled
as oracles indexed by call count: the n-th call to `create_pow` returns
`env.pow n`, the n-th staleness probe returns `env.stale n`, the n-th
`do_pow_register` submission returns `env.submit n`, and the n-th
`is_hotkey_registered` probe returns `env.isReg n`.  The interpreters are
fuel-bounded because the source loops can run unboundedly; a result of
`none` means the fuel ran out with the function still looping.  Counters
record how many times each oracle was consulted, so theorems can speak
about the number of solver invocations and submissions a run performs.
-/

/-- Boolean test that `pat` is a prefix of `s` (over character lists). -/
def startsWithL : List Char → List Char → Bool
  | [], _ => true
  | _ :: _, [] => false
  | p :: ps, s :: ss => p == s && startsWithL ps ss

/-- Boolean test that `pat` occurs contiguously inside `s`, the semantics of
Python's `pat in s` on strings. -/
def occursL (pat : List Char) : List Char → Bool
  | [] => startsWithL pat []
  | s :: ss => startsWithL pat (s :: ss) || occursL pat ss

/-- String containment, Python's `pat in s`. -/
def strOccurs (pat s : String) : Bool :=
  occursL pat.data s.data

/-- Test used at line 180 of the source: `"key is already registered" in err_msg`. -/
def keyAlreadyMsg (m : String) : Bool :=
  strOccurs "key is already registered" m

/-- Proof-of-work solution as produced by the solver (`POWSolution`). -/
structure PowSolution where
  blockNumber : Nat
  nonce : Nat
  «seal» : List Nat

/-- Oracle environment for `register_extrinsic`: the responses of the chain
client, the solver, the user prompt and the hardware checks. -/
structure RegEnv where
  subnetExists : Bool
  neuronIsNull : Bool
  prompt : Bool
  confirmAns : Bool
  torchAvailable : Bool
  cuda : Bool
  cudaAvailable : Bool
  pow : Nat → Option PowSolution
  stale : Nat → Bool
  submit : Nat → Bool × Option String
  isReg : Nat → Bool

/-- Counts of oracle calls made during a run, plus the `attempts` variable of
the source. -/
structure RegCounters where
  powCalls : Nat
  staleCalls : Nat
  submitCalls : Nat
  isRegCalls : Nat
  attempts : Nat
deriving DecidableEq

/-- Result of a Python function run: an ordinary return value or a raised
exception. -/
inductive PyResult where
  | ret (b : Bool)
  | exc (msg : String)
deriving DecidableEq

/-- Control point inside the retry loops of `register_extrinsic`: the top of
the outer `while True` (about to solve a POW) or the top of the inner
`while not pow_result.is_stale()` submit loop. -/
inductive RegPhase where
  | solve
  | submitCycle (sol : PowSolution)

/-- One fuel-bounded interpreter for the loops of `register_extrinsic`
(source lines 117-226).  Faithful points: a generic submission failure
falls back to the inner staleness test and resubmits the same solution; the
stale exit is the `while/else` branch whose `continue` restarts the outer
loop, skipping the attempt accounting of lines 215-226; that accounting is
reached only on the `create_pow is None` path; a failed submission whose
error message is `None` raises `TypeError` at the `in err_msg` test. -/
def regStep (env : RegEnv) (maxA : Nat) :
    RegPhase → RegCounters → Nat → Option PyResult × RegCounters
  | _, c, 0 => (none, c)
  | .solve, c, fuel + 1 =>
    if env.cuda && !env.cudaAvailable then (some (.ret false), c)
    else
      match env.pow c.powCalls with
      | none =>
        let c1 : RegCounters := { c with powCalls := c.powCalls + 1 }
        let reg := env.isReg c1.isRegCalls
        let c2 : RegCounters := { c1 with isRegCalls := c1.isRegCalls + 1 }
        if reg then (some (.ret true), c2)
        else if c2.attempts < maxA then
          regStep env maxA .solve { c2 with attempts := c2.attempts + 1 } fuel
        else (some (.ret false), c2)
      | some sol =>
        regStep env maxA (.submitCycle sol) { c with powCalls := c.powCalls + 1 } fuel
  | .submitCycle sol, c, fuel + 1 =>
    if env.stale c.staleCalls then
      regStep env maxA .solve { c with staleCalls := c.staleCalls + 1 } fuel
    else
      let c1 : RegCounters := { c with staleCalls := c.staleCalls + 1 }
      let sub := env.submit c1.submitCalls
      let c2 : RegCounters := { c1 with submitCalls := c1.submitCalls + 1 }
      if sub.1 = false then
        match sub.2 with
        | none => (some (.exc "TypeError"), c2)
        | some m =>
          if keyAlreadyMsg m then (some (.ret true), c2)
          else regStep env maxA (.submitCycle sol) c2 fuel
      else
        let reg := env.isReg c2.isRegCalls
        let c3 : RegCounters := { c2 with isRegCalls := c2.isRegCalls + 1 }
        if reg then (some (.ret true), c3)
        else regStep env maxA (.submitCycle sol) c3 fuel

/-- Initial counter state: no oracle calls yet, `attempts = 1` as at source
line 118. -/
def regInit : RegCounters := ⟨0, 0, 0, 0, 1⟩

/-- Embedding of `register_extrinsic` (source lines 46-226): subnet
existence check, already-registered short-circuit, prompt, torch check,
then the fuel-bounded rolling-registration loop. -/
def register_extrinsic (env : RegEnv) (maxA : Nat) (fuel : Nat) :
    Option PyResult × RegCounters :=
  if !env.subnetExists then (some (.ret false), regInit)
  else if !env.neuronIsNull then (some (.ret true), regInit)
  else if env.prompt && !env.confirmAns then (some (.ret false), regInit)
  else if !env.torchAvailable then (some (.ret false), regInit)
  else regStep env maxA .solve regInit fuel

/-- Oracle environment for `burned_register_extrinsic`: one submission
result and one post-submission registration probe at most. -/
structure BurnEnv where
  subnetExists : Bool
  neuronIsNull : Bool
  prompt : Bool
  confirmAns : Bool
  submit : Bool × Option String
  isReg : Bool

/-- Embedding of `burned_register_extrinsic` (source lines 229-326).  The
second component counts `do_burned_register` submissions performed (0 or
1).  Faithful point: the failure branch at lines 294-299 returns `False`
for every rejection; the error-message text is printed but never
inspected. -/
def burned_register_extrinsic (env : BurnEnv) : Bool × Nat :=
  if !env.subnetExists then (false, 0)
  else if !env.neuronIsNull then (true, 0)
  else if env.prompt && !env.confirmAns then (false, 0)
  else
    let sub := env.submit
    if sub.1 = false then (false, 1)
    else if env.isReg then (true, 1)
    else (false, 1)

/-- Oracle environment for `run_faucet_extrinsic`. -/
structure FaucetEnv where
  prompt : Bool
  confirmAns : Bool
  torchAvailable : Bool
  cuda : Bool
  cudaAvailable : Bool
  pow : Nat → Option PowSolution
  stale : Nat → Bool
  submitSuccess : Nat → Bool

/-- Oracle-call counters for the faucet loop, plus the `attempts` and
`successes` variables of the source (both start at 1, line 384-385). -/
structure FCounters where
  powCalls : Nat
  staleCalls : Nat
  submitCalls : Nat
  attempts : Nat
  successes : Nat
deriving DecidableEq

/-- Control point inside the faucet loop: the `while pow_result is None or
pow_result.is_stale()` solve loop (with the current candidate solution) or
the submission of a fresh solution. -/
inductive FPhase where
  | getPow (cur : Option PowSolution)
  | submitP (sol : PowSolution)

/-- Fuel-bounded interpreter for the loops of `run_faucet_extrinsic`
(source lines 386-466).  Faithful points: when the candidate solution is
`None` the staleness probe is not consulted (Python `or` short-circuit);
the CUDA availability check happens inside the solve loop body; each outer
iteration restarts the solve loop from `None`; `attempts` is compared
against the ceiling before being incremented and is never reset by a
success; `successes` is compared against the literal 3 before being
incremented. -/
def faucetStep (env : FaucetEnv) (maxA : Nat) :
    FPhase → FCounters → Nat → Option (Bool × String) × FCounters
  | _, c, 0 => (none, c)
  | .getPow none, c, fuel + 1 =>
    if env.cuda && !env.cudaAvailable then (some (false, "CUDA is not available."), c)
    else
      faucetStep env maxA (.getPow (env.pow c.powCalls))
        { c with powCalls := c.powCalls + 1 } fuel
  | .getPow (some sol), c, fuel + 1 =>
    let st := env.stale c.staleCalls
    let c1 : FCounters := { c with staleCalls := c.staleCalls + 1 }
    if st then
      if env.cuda && !env.cudaAvailable then (some (false, "CUDA is not available."), c1)
      else
        faucetStep env maxA (.getPow (env.pow c1.powCalls))
          { c1 with powCalls := c1.powCalls + 1 } fuel
    else faucetStep env maxA (.submitP sol) c1 fuel
  | .submitP _, c, fuel + 1 =>
    let succ := env.submitSuccess c.submitCalls
    let c1 : FCounters := { c with submitCalls := c.submitCalls + 1 }
    if succ = false then
      if c1.attempts = maxA then
        (some (false, "Max attempts reached: " ++ toString maxA), c1)
      else faucetStep env maxA (.getPow none) { c1 with attempts := c1.attempts + 1 } fuel
    else
      if c1.successes = 3 then (some (true, "Max successes reached: 3"), c1)
      else faucetStep env maxA (.getPow none) { c1 with successes := c1.successes + 1 } fuel

/-- Initial faucet counters: `attempts = 1`, `successes = 1` as at source
lines 384-385. -/
def faucetInit : FCounters := ⟨0, 0, 0, 1, 1⟩

/-- Embedding of `run_faucet_extrinsic` (source lines 329-466): prompt,
torch check, then the fuel-bounded faucet loop.  External keyboard
interruption is an asynchronous signal and is not modelled. -/
def run_faucet_extrinsic (env : FaucetEnv) (maxA : Nat) (fuel : Nat) :
    Option (Bool × String) × FCounters :=
  if env.prompt && !env.confirmAns then (some (false, ""), faucetInit)
  else if !env.torchAvailable then (some (false, "Requires torch"), faucetInit)
  else faucetStep env maxA (.getPow none) faucetInit fuel

/-- Number of indices `n < k` with `f n = true`. -/
def countTrue (f : Nat → Bool) : Nat → Nat
  | 0 => 0
  | k + 1 => countTrue f k + (if f k then 1 else 0)

/-- Successful submissions among the first `k` faucet submissions. -/
def countSucc (env : FaucetEnv) (k : Nat) : Nat :=
  countTrue (fun n => env.submitSuccess n) k

/-- Failed submissions among the first `k` faucet submissions. -/
def countFail (env : FaucetEnv) (k : Nat) : Nat :=
  countTrue (fun n => !env.submitSuccess n) k

/-- A fixed proof-of-work solution used by the concrete oracle
environments below. -/
def sol0 : PowSolution := ⟨0, 0, []⟩

/-- Concrete run of `register_extrinsic`: subnet exists, hotkey never
registered, solver always returns a solution, every submission is rejected
with a generic message, and every third staleness probe reports stale. -/
def genericRejectEnv : RegEnv :=
  ⟨true, true, false, true, true, false, true,
   fun _ => some sol0, fun n => n % 3 == 2,
   fun _ => (false, some "generic error"), fun _ => false⟩

/-- Concrete run where the hotkey is already registered at the initial
neuron check. -/
def alreadyRegEnv : RegEnv :=
  ⟨true, false, false, true, true, false, true,
   fun _ => some sol0, fun _ => false,
   fun _ => (false, some "x"), fun _ => false⟩

/-- Concrete run where the first submission is rejected with a message
containing "key is already registered". -/
def keyMsgEnv : RegEnv :=
  ⟨true, true, false, true, true, false, true,
   fun _ => some sol0, fun _ => false,
   fun _ => (false, some "The key is already registered on chain"), fun _ => false⟩

/-- Concrete run where `create_pow` always returns `None` and the hotkey is
never registered. -/
def powNoneEnv : RegEnv :=
  ⟨true, true, false, true, true, false, true,
   fun _ => none, fun _ => false,
   fun _ => (false, some "x"), fun _ => false⟩

/-- Concrete run where a failed submission carries no error message
(`do_pow_register` returns `(False, None)`). -/
def errNoneEnv : RegEnv :=
  ⟨true, true, false, true, true, false, true,
   fun _ => some sol0, fun _ => false,
   fun _ => (false, none), fun _ => false⟩

/-- Concrete run where every solution is already stale at its first
staleness probe. -/
def staleEnv : RegEnv :=
  ⟨true, true, false, true, true, false, true,
   fun _ => some sol0, fun _ => true,
   fun _ => (true, none), fun _ => false⟩

/-- Concrete fee-based run: the single submission succeeds but the
post-submission registration probe denies. -/
def probeDenyBurnEnv : BurnEnv :=
  ⟨true, true, false, true, (true, none), false⟩

/-- Concrete fee-based run: the single submission is rejected with a
message containing "already registered"; the probe would even confirm. -/
def alreadyMsgBurnEnv : BurnEnv :=
  ⟨true, true, false, true, (false, some "Custom error: already registered"), true⟩

/-- Concrete faucet run where every submission succeeds and solutions are
never stale. -/
def allSuccessFaucetEnv : FaucetEnv :=
  ⟨false, true, true, false, true, fun _ => some sol0, fun _ => false, fun _ => true⟩

/-- Concrete faucet run where submissions 0 and 2 fail and submission 1
succeeds. -/
def mixedFailFaucetEnv : FaucetEnv :=
  ⟨false, true, true, false, true, fun _ => some sol0, fun _ => false, fun n => n == 1⟩

/-- C3: when the target subnet exists and the hotkey is already registered
on it (the initial neuron lookup is not null), `register_extrinsic`
returns `True` with zero solver invocations and zero submissions; a second
call in the same situation behaves identically, so an already-successful
registration yields success again with no submission. -/
theorem register_already_registered_short_circuit
    (env : RegEnv) (maxA fuel : Nat)
    (h1 : env.subnetExists = true) (h2 : env.neuronIsNull = false) :
    register_extrinsic env maxA fuel = (some (.ret true), regInit) := by
  simp [register_extrinsic, h1, h2]

/-- Witness for the short-circuit theorem at a concrete environment. -/
theorem register_already_registered_short_circuit_witness :
    register_extrinsic alreadyRegEnv 3 10 = (some (.ret true), regInit) :=
  register_already_registered_short_circuit alreadyRegEnv 3 10 rfl rfl

/-- C5: at any point of any run, a submission rejected with a message
containing "key is already registered" makes `register_extrinsic` return
`True` immediately: no further solver call (`powCalls` unchanged) and no
further submission (exactly one more `submitCalls`). -/
theorem register_key_already_registered_immediate_true
    (env : RegEnv) (maxA : Nat) (sol : PowSolution) (c : RegCounters)
    (fuel : Nat) (m : String)
    (hst : env.stale c.staleCalls = false)
    (hsub : env.submit c.submitCalls = (false, some m))
    (hmsg : keyAlreadyMsg m = true) :
    regStep env maxA (.submitCycle sol) c (fuel + 1) =
      (some (.ret true),
        { c with staleCalls := c.staleCalls + 1, submitCalls := c.submitCalls + 1 }) := by
  simp [regStep, hst, hsub, hmsg]

/-- Witness: the first submission of `keyMsgEnv` is rejected with the
"key is already registered" message and the run returns `True` at once. -/
theorem register_key_already_registered_immediate_true_witness :
    regStep keyMsgEnv 3 (.submitCycle sol0) regInit 5 =
      (some (.ret true),
        { regInit with staleCalls := 1, submitCalls := 1 }) :=
  register_key_already_registered_immediate_true keyMsgEnv 3 sol0 regInit 4
    "The key is already registered on chain" rfl rfl rfl

/-- C10 (code bug): a failed submission whose error message is absent makes
the embedded code raise `TypeError` at the `in err_msg` containment test
instead of resolving to a boolean. -/
theorem register_none_errmsg_raises_typeerror :
    register_extrinsic errNoneEnv 3 10 = (some (.exc "TypeError"), ⟨1, 1, 1, 0, 1⟩) := by
  rfl

/-- C6 counterexample: a fee-based registration whose single submission is
rejected with a message containing "already registered" returns `False`,
not `True`; the rejection branch never inspects the message text. -/
theorem burned_already_registered_rejection_returns_false :
    strOccurs "already registered" "Custom error: already registered" = true ∧
      burned_register_extrinsic alreadyMsgBurnEnv = (false, 1) := by
  constructor
  · rfl
  · rfl

/-- C6 amended: `burned_register_extrinsic` performs at most one submission
and has no retry ceiling, and every rejection of that single submission —
whatever its message says — yields overall failure with no further
submission. -/
theorem burned_single_submission_any_rejection_false (env : BurnEnv) :
    (burned_register_extrinsic env).2 ≤ 1 ∧
      (env.subnetExists = true → env.neuronIsNull = true →
        (env.prompt && !env.confirmAns) = false → (env.submit).1 = false →
        burned_register_extrinsic env = (false, 1)) := by
  constructor
  · unfold burned_register_extrinsic
    cases h1 : env.subnetExists <;> cases h2 : env.neuronIsNull <;>
      cases h3 : (env.prompt && !env.confirmAns) <;> cases h4 : env.submit.1 <;>
        cases h5 : env.isReg <;> simp [h1, h2, h3, h4, h5]
  · intro h1 h2 h3 h4
    simp [burned_register_extrinsic, h1, h2, h3, h4]

/-- Witness for the fee-based rejection theorem at the concrete
"already registered" environment. -/
theorem burned_single_submission_any_rejection_false_witness :
    (burned_register_extrinsic alreadyMsgBurnEnv).2 ≤ 1 ∧
      burned_register_extrinsic alreadyMsgBurnEnv = (false, 1) := by
  have h := burned_single_submission_any_rejection_false alreadyMsgBurnEnv
  exact ⟨h.1, h.2 rfl rfl rfl rfl⟩

/-- C7 counterexample: with the default ceiling of 3, a run where the
solver always reports no solution and the hotkey is never registered
invokes the solver three times — not once — before returning `False`, so a
solver failure is retried rather than immediately fatal. -/
theorem register_pow_none_retries_solver :
    register_extrinsic powNoneEnv 3 10 = (some (.ret false), ⟨3, 0, 0, 3, 3⟩) := by
  rfl

/-- C1 counterexample: subnet exists, hotkey never registered, the solver
always returns a solution and every submission is rejected with a generic
message; with `max_allowed_attempts = 2` and fuel for 50 loop iterations
the run is still going after 13 solver calls and 25 rejected submissions,
with the attempt counter still at 1 — it does not return `False` after 2
solve-and-submit cycles, and rejected submissions are not counted. -/
theorem register_rejected_submissions_cycle_counterexample :
    register_extrinsic genericRejectEnv 2 50 = (none, ⟨13, 37, 25, 0, 1⟩) := by
  rfl

/-- C9 counterexample: with ceiling 2, a faucet run whose submissions go
reject, succeed, reject terminates with the max-attempts failure even
though the two failures are separated by a success — consecutiveness is
not required because the attempt counter is never reset on success. -/
theorem faucet_nonconsecutive_failures_exhaust_ceiling :
    run_faucet_extrinsic mixedFailFaucetEnv 2 40 =
        (some (false, "Max attempts reached: 2"), ⟨3, 3, 3, 2, 2⟩) ∧
      mixedFailFaucetEnv.submitSuccess 0 = false ∧
      mixedFailFaucetEnv.submitSuccess 1 = true ∧
      mixedFailFaucetEnv.submitSuccess 2 = false := by
  refine ⟨by rfl, rfl, rfl, rfl⟩

/-- Helper: when the solver always returns a solution, every rejected
submission carries a generic message (present, without the
"key is already registered" text) and the registration probe always
denies, the loop interpreter never terminates and never touches the
attempt counter, from any phase and counter state. -/
theorem regStep_nonterminal_generic
    (env : RegEnv) (maxA : Nat)
    (hcuda : (env.cuda && !env.cudaAvailable) = false)
    (hpow : ∀ n, ∃ s, env.pow n = some s)
    (hsub : ∀ n, (env.submit n).1 = false →
      ∃ m, (env.submit n).2 = some m ∧ keyAlreadyMsg m = false)
    (hreg : ∀ n, env.isReg n = false) :
    ∀ fuel ph c, (regStep env maxA ph c fuel).1 = none ∧
      (regStep env maxA ph c fuel).2.attempts = c.attempts := by
  intro fuel
  induction fuel with
  | zero => intro ph c; cases ph <;> exact ⟨rfl, rfl⟩
  | succ f ih =>
    intro ph c
    cases ph with
    | solve =>
      obtain ⟨s, hs⟩ := hpow c.powCalls
      simpa [regStep, hcuda, hs] using ih (.submitCycle s) _
    | submitCycle sol =>
      cases hst : env.stale c.staleCalls with
      | true => simpa [regStep, hst] using ih .solve _
      | false =>
        cases hb : (env.submit c.submitCalls).1 with
        | false =>
          obtain ⟨m, hm, hkm⟩ := hsub c.submitCalls hb
          simpa [regStep, hst, hb, hm, hkm] using ih (.submitCycle sol) _
        | true => simpa [regStep, hst, hb, hreg] using ih (.submitCycle sol) _

/-- C1 corrected: in the claimed scenario (subnet exists, hotkey never
registered, solver always returns a solution, every submission rejected
with a generic message) `register_extrinsic` does not return `False` after
2 cycles — it never terminates at all, for any fuel and any ceiling: a
rejected fresh submission is not counted as an attempt, the same solution
is resubmitted until stale and staleness only triggers a fresh solve, so
the attempt counter stays at 1 forever. -/
theorem register_rejected_submissions_never_counted
    (env : RegEnv) (maxA : Nat)
    (h1 : env.subnetExists = true) (h2 : env.neuronIsNull = true)
    (h3 : (env.prompt && !env.confirmAns) = false)
    (h4 : env.torchAvailable = true)
    (hcuda : (env.cuda && !env.cudaAvailable) = false)
    (hpow : ∀ n, ∃ s, env.pow n = some s)
    (hsub : ∀ n, (env.submit n).1 = false ∧
      ∃ m, (env.submit n).2 = some m ∧ keyAlreadyMsg m = false)
    (hreg : ∀ n, env.isReg n = false) :
    ∀ fuel, (register_extrinsic env maxA fuel).1 = none ∧
      (register_extrinsic env maxA fuel).2.attempts = 1 := by
  intro fuel
  have h := regStep_nonterminal_generic env maxA hcuda hpow
    (fun n _ => (hsub n).2) hreg fuel .solve regInit
  simpa [register_extrinsic, h1, h2, h3, h4] using h

/-- Witness: the never-counted theorem applied to the concrete
generic-rejection environment with ceiling 2 and fuel 50. -/
theorem register_rejected_submissions_never_counted_witness :
    (register_extrinsic genericRejectEnv 2 50).1 = none ∧
      (register_extrinsic genericRejectEnv 2 50).2.attempts = 1 :=
  register_rejected_submissions_never_counted genericRejectEnv 2
    rfl rfl rfl rfl rfl (fun _ => ⟨sol0, rfl⟩)
    (fun _ => ⟨rfl, "generic error", rfl, rfl⟩) (fun _ => rfl) 50

/-- Helper: when the registration probe always denies and no rejection
message contains "key is already registered", the loop interpreter can
never produce the return value `True` — a submission's success flag alone
never yields `True`. -/
theorem regStep_never_true_without_probe
    (env : RegEnv) (maxA : Nat)
    (hreg : ∀ n, env.isReg n = false)
    (hsub : ∀ n m, (env.submit n).2 = some m → keyAlreadyMsg m = false) :
    ∀ fuel ph c, (regStep env maxA ph c fuel).1 ≠ some (.ret true) := by
  intro fuel
  induction fuel with
  | zero => intro ph c; cases ph <;> simp [regStep]
  | succ f ih =>
    intro ph c
    cases ph with
    | solve =>
      cases hcu : (env.cuda && !env.cudaAvailable) with
      | true => simp [regStep, hcu]
      | false =>
        cases hp : env.pow c.powCalls with
        | none =>
          by_cases hatt : c.attempts < maxA
          · simpa [regStep, hcu, hp, hreg, hatt] using ih .solve _
          · simp [regStep, hcu, hp, hreg, hatt]
        | some sol => simpa [regStep, hcu, hp] using ih (.submitCycle sol) _
    | submitCycle sol =>
      cases hst : env.stale c.staleCalls with
      | true => simpa [regStep, hst] using ih .solve _
      | false =>
        cases hb : (env.submit c.submitCalls).1 with
        | false =>
          cases he : (env.submit c.submitCalls).2 with
          | none => simp [regStep, hst, hb, he]
          | some m =>
            simpa [regStep, hst, hb, he, hsub _ _ he] using ih (.submitCycle sol) _
        | true => simpa [regStep, hst, hb, hreg] using ih (.submitCycle sol) _

/-- C2: `True` is only produced after a direct `is_hotkey_registered`
probe confirms (or an "already registered" signal): if the hotkey is not
registered at the initial check, every probe denies and no rejection
message carries the "key is already registered" text, then
`register_extrinsic` never returns `True` — even when submissions report
success — and `burned_register_extrinsic`, whose single successful
submission is followed by a denying probe, returns `False`. -/
theorem register_burned_confirm_before_true :
    (∀ (env : RegEnv) (maxA fuel : Nat), env.neuronIsNull = true →
      (∀ n, env.isReg n = false) →
      (∀ n m, (env.submit n).2 = some m → keyAlreadyMsg m = false) →
      (register_extrinsic env maxA fuel).1 ≠ some (.ret true)) ∧
    (∀ benv : BurnEnv, benv.neuronIsNull = true → benv.isReg = false →
      (burned_register_extrinsic benv).1 = false) := by
  constructor
  · intro env maxA fuel hneuron hreg hsub
    unfold register_extrinsic
    cases hs : env.subnetExists with
    | false => simp [hs]
    | true =>
      cases hpc : (env.prompt && !env.confirmAns) with
      | true => simp [hs, hneuron, hpc]
      | false =>
        cases ht : env.torchAvailable with
        | false => simp [hs, hneuron, hpc, ht]
        | true =>
          simpa [hs, hneuron, hpc, ht] using
            regStep_never_true_without_probe env maxA hreg hsub fuel .solve regInit
  · intro benv hneuron hreg
    cases hs : benv.subnetExists with
    | false => simp [burned_register_extrinsic, hs]
    | true =>
      cases hpc : (benv.prompt && !benv.confirmAns) with
      | true => simp [burned_register_extrinsic, hs, hneuron, hpc]
      | false =>
        cases hb : benv.submit.1 with
        | false => simp [burned_register_extrinsic, hs, hneuron, hpc, hb]
        | true => simp [burned_register_extrinsic, hs, hneuron, hpc, hb, hreg]

/-- Witness: the confirm-before-true theorem at the concrete
generic-rejection environment and the probe-denying fee-based run. -/
theorem register_burned_confirm_before_true_witness :
    (register_extrinsic genericRejectEnv 3 7).1 ≠ some (.ret true) ∧
      (burned_register_extrinsic probeDenyBurnEnv).1 = false :=
  ⟨register_burned_confirm_before_true.1 genericRejectEnv 3 7 rfl (fun _ => rfl)
      (fun _ m hm => by
        simp only [genericRejectEnv] at hm
        cases hm
        rfl),
    register_burned_confirm_before_true.2 probeDenyBurnEnv rfl rfl⟩

/-- Helper: when the solver always returns a solution and every staleness
probe reports stale, the interpreter keeps alternating solve and staleness
check forever: no termination, no attempt accounting, and at least one
fresh solve every two fuel units. -/
theorem regStep_always_stale
    (env : RegEnv) (maxA : Nat)
    (hcuda : (env.cuda && !env.cudaAvailable) = false)
    (hpow : ∀ n, ∃ s, env.pow n = some s)
    (hstale : ∀ n, env.stale n = true) :
    ∀ fuel c,
      ((regStep env maxA .solve c fuel).1 = none ∧
        (regStep env maxA .solve c fuel).2.attempts = c.attempts ∧
        c.powCalls + (fuel + 1) / 2 ≤ (regStep env maxA .solve c fuel).2.powCalls) ∧
      (∀ sol, (regStep env maxA (.submitCycle sol) c fuel).1 = none ∧
        (regStep env maxA (.submitCycle sol) c fuel).2.attempts = c.attempts ∧
        c.powCalls + fuel / 2 ≤ (regStep env maxA (.submitCycle sol) c fuel).2.powCalls) := by
  intro fuel
  induction fuel with
  | zero =>
    intro c
    exact ⟨⟨rfl, rfl, by simp [regStep]⟩, fun sol => ⟨rfl, rfl, by simp [regStep]⟩⟩
  | succ f ih =>
    intro c
    constructor
    · obtain ⟨s, hs⟩ := hpow c.powCalls
      have hrw : regStep env maxA .solve c (f + 1) =
          regStep env maxA (.submitCycle s) { c with powCalls := c.powCalls + 1 } f := by
        simp [regStep, hcuda, hs]
      have h := (ih { c with powCalls := c.powCalls + 1 }).2 s
      rw [hrw]
      refine ⟨h.1, h.2.1, ?_⟩
      have hb := h.2.2
      simp only at hb
      omega
    · intro sol
      have hrw : regStep env maxA (.submitCycle sol) c (f + 1) =
          regStep env maxA .solve { c with staleCalls := c.staleCalls + 1 } f := by
        simp [regStep, hstale]
      have h := (ih { c with staleCalls := c.staleCalls + 1 }).1
      rw [hrw]
      refine ⟨h.1, h.2.1, ?_⟩
      have hb := h.2.2
      simp only at hb
      omega

/-- C4: a stale solution sends the orchestrator back to the solve step
without attempt accounting.  First part: in any run where every submission
reports success but is never confirmed (no rejection, no terminal
outcome), the run continues forever with the attempt counter at its
initial value 1.  Second part: when every solution expires at its first
staleness probe, the run additionally keeps re-solving — at least one
fresh solver call per two fuel units — still with the counter at 1, so
staleness alone never exhausts the ceiling. -/
theorem register_staleness_consumes_no_attempt
    (env : RegEnv) (maxA : Nat)
    (h1 : env.subnetExists = true) (h2 : env.neuronIsNull = true)
    (h3 : (env.prompt && !env.confirmAns) = false)
    (h4 : env.torchAvailable = true)
    (hcuda : (env.cuda && !env.cudaAvailable) = false)
    (hpow : ∀ n, ∃ s, env.pow n = some s) :
    ((∀ n, (env.submit n).1 = true) → (∀ n, env.isReg n = false) →
      ∀ fuel, (register_extrinsic env maxA fuel).1 = none ∧
        (register_extrinsic env maxA fuel).2.attempts = 1) ∧
    ((∀ n, env.stale n = true) →
      ∀ fuel, (register_extrinsic env maxA fuel).1 = none ∧
        (register_extrinsic env maxA fuel).2.attempts = 1 ∧
        fuel / 2 ≤ (register_extrinsic env maxA fuel).2.powCalls) := by
  constructor
  · intro hsubT hreg fuel
    have h := regStep_nonterminal_generic env maxA hcuda hpow
      (fun n hn => absurd (hsubT n) (by simp [hn])) hreg fuel .solve regInit
    simpa [register_extrinsic, h1, h2, h3, h4] using h
  · intro hstale fuel
    have h := (regStep_always_stale env maxA hcuda hpow hstale fuel regInit).1
    have hrw : register_extrinsic env maxA fuel = regStep env maxA .solve regInit fuel := by
      simp [register_extrinsic, h1, h2, h3, h4]
    rw [hrw]
    refine ⟨h.1, h.2.1, ?_⟩
    have hb := h.2.2
    simp only [regInit] at hb
    omega

/-- Witness: the staleness theorem at the concrete always-stale
environment (which also has all-success submissions and denying probes),
ceiling 3 and fuel 11. -/
theorem register_staleness_consumes_no_attempt_witness :
    ((register_extrinsic staleEnv 3 11).1 = none ∧
      (register_extrinsic staleEnv 3 11).2.attempts = 1) ∧
    ((register_extrinsic staleEnv 3 11).1 = none ∧
      (register_extrinsic staleEnv 3 11).2.attempts = 1 ∧
      11 / 2 ≤ (register_extrinsic staleEnv 3 11).2.powCalls) := by
  have h := register_staleness_consumes_no_attempt staleEnv 3
    rfl rfl rfl rfl rfl (fun _ => ⟨sol0, rfl⟩)
  exact ⟨(h.1 (fun _ => rfl) (fun _ => rfl)) 11, (h.2 (fun _ => rfl)) 11⟩

/-- Helper: when the solver always reports no solution and the hotkey is
never registered, each outer iteration consumes one attempt, and once the
counter reaches the ceiling the run returns `False`; the solver is invoked
once per attempt and nothing is ever submitted. -/
theorem regStep_pow_none_accounting
    (env : RegEnv) (maxA : Nat)
    (hcuda : (env.cuda && !env.cudaAvailable) = false)
    (hpow : ∀ n, env.pow n = none)
    (hreg : ∀ n, env.isReg n = false) :
    ∀ fuel c, c.attempts ≤ maxA → maxA - c.attempts < fuel →
      regStep env maxA .solve c fuel =
        (some (.ret false),
          ⟨c.powCalls + (maxA - c.attempts) + 1, c.staleCalls, c.submitCalls,
           c.isRegCalls + (maxA - c.attempts) + 1, maxA⟩) := by
  intro fuel
  induction fuel with
  | zero => intro c h1 h2; omega
  | succ f ih =>
    intro c h1 h2
    by_cases hatt : c.attempts < maxA
    · have hrw : regStep env maxA .solve c (f + 1) =
          regStep env maxA .solve
            ⟨c.powCalls + 1, c.staleCalls, c.submitCalls,
             c.isRegCalls + 1, c.attempts + 1⟩ f := by
        simp [regStep, hcuda, hpow, hreg, hatt]
      rw [hrw, ih _ (by simp; omega) (by simp; omega)]
      simp only [Prod.mk.injEq, RegCounters.mk.injEq, and_true, true_and]
      omega
    · have heq : c.attempts = maxA := le_antisymm h1 (Nat.not_lt.mp hatt)
      have hrw : regStep env maxA .solve c (f + 1) =
          (some (.ret false),
            ⟨c.powCalls + 1, c.staleCalls, c.submitCalls,
             c.isRegCalls + 1, c.attempts⟩) := by
        simp [regStep, hcuda, hpow, hreg, hatt]
      rw [hrw]
      simp only [Prod.mk.injEq, RegCounters.mk.injEq, and_true, true_and]
      omega

/-- C7 corrected: a solver "no solution" with an unregistered hotkey is a
counted, retried failure, not an unretried fatal one: each such cycle
consumes one attempt with no submission, the solver is re-invoked until
the ceiling is reached, and only then does the function return `False`,
after exactly `maxA` solver invocations (so it returns `False` without a
second solver call only when `maxA = 1`). -/
theorem register_pow_none_attempt_accounting
    (env : RegEnv) (maxA fuel : Nat)
    (h1 : env.subnetExists = true) (h2 : env.neuronIsNull = true)
    (h3 : (env.prompt && !env.confirmAns) = false)
    (h4 : env.torchAvailable = true)
    (hcuda : (env.cuda && !env.cudaAvailable) = false)
    (hpow : ∀ n, env.pow n = none)
    (hreg : ∀ n, env.isReg n = false)
    (hmax : 1 ≤ maxA) (hfuel : maxA ≤ fuel) :
    register_extrinsic env maxA fuel = (some (.ret false), ⟨maxA, 0, 0, maxA, maxA⟩) := by
  have h := regStep_pow_none_accounting env maxA hcuda hpow hreg fuel regInit
    (by simp [regInit]; omega) (by simp [regInit]; omega)
  have hrw : register_extrinsic env maxA fuel = regStep env maxA .solve regInit fuel := by
    simp [register_extrinsic, h1, h2, h3, h4]
  rw [hrw, h]
  simp only [regInit, Prod.mk.injEq, RegCounters.mk.injEq, and_true, true_and]
  omega

/-- Witness: the accounting theorem at the concrete solver-failure
environment with the default ceiling 3 and fuel 10. -/
theorem register_pow_none_attempt_accounting_witness :
    register_extrinsic powNoneEnv 3 10 = (some (.ret false), ⟨3, 0, 0, 3, 3⟩) :=
  register_pow_none_attempt_accounting powNoneEnv 3 10
    rfl rfl rfl rfl rfl (fun _ => rfl) (fun _ => rfl)
    (by omega) (by omega)

/-- Helper: the faucet loop keeps the running `successes` variable equal to
one plus the number of successful submissions so far; consequently no run
ever performs a fourth successful submission, a run still in progress has
performed at most two, and the max-successes exit fires exactly at the
third. -/
theorem faucetStep_success_bound (env : FaucetEnv) (maxA : Nat) :
    ∀ fuel ph c,
      c.successes = countSucc env c.submitCalls + 1 →
      c.successes ≤ 3 →
      countSucc env (faucetStep env maxA ph c fuel).2.submitCalls ≤ 3 ∧
      ((faucetStep env maxA ph c fuel).1 = none →
        countSucc env (faucetStep env maxA ph c fuel).2.submitCalls ≤ 2) ∧
      (∀ m, (faucetStep env maxA ph c fuel).1 = some (true, m) →
        m = "Max successes reached: 3" ∧
        countSucc env (faucetStep env maxA ph c fuel).2.submitCalls = 3) := by
  intro fuel
  induction fuel with
  | zero =>
    intro ph c hinv hle
    have h0 : faucetStep env maxA ph c 0 = (none, c) := by
      cases ph with
      | getPow cur => cases cur <;> rfl
      | submitP sol => rfl
    rw [h0]
    exact ⟨by dsimp; omega, fun _ => by dsimp; omega, fun m hm => by simp at hm⟩
  | succ f ih =>
    intro ph c hinv hle
    cases ph with
    | getPow cur =>
      cases cur with
      | none =>
        cases hcu : (env.cuda && !env.cudaAvailable) with
        | true =>
          have hrw : faucetStep env maxA (.getPow none) c (f + 1) =
              (some (false, "CUDA is not available."), c) := by
            simp [faucetStep, hcu]
          rw [hrw]
          exact ⟨by dsimp; omega, by simp, fun m hm => by simp at hm⟩
        | false =>
          have hrw : faucetStep env maxA (.getPow none) c (f + 1) =
              faucetStep env maxA (.getPow (env.pow c.powCalls))
                ⟨c.powCalls + 1, c.staleCalls, c.submitCalls, c.attempts, c.successes⟩ f := by
            simp [faucetStep, hcu]
          rw [hrw]
          exact ih _ _ hinv hle
      | some sol =>
        cases hst : env.stale c.staleCalls with
        | true =>
          cases hcu : (env.cuda && !env.cudaAvailable) with
          | true =>
            have hrw : faucetStep env maxA (.getPow (some sol)) c (f + 1) =
                (some (false, "CUDA is not available."),
                  ⟨c.powCalls, c.staleCalls + 1, c.submitCalls, c.attempts, c.successes⟩) := by
              simp [faucetStep, hst, hcu]
            rw [hrw]
            exact ⟨by dsimp; omega, by simp, fun m hm => by simp at hm⟩
          | false =>
            have hrw : faucetStep env maxA (.getPow (some sol)) c (f + 1) =
                faucetStep env maxA (.getPow (env.pow c.powCalls))
                  ⟨c.powCalls + 1, c.staleCalls + 1, c.submitCalls, c.attempts, c.successes⟩ f := by
              simp [faucetStep, hst, hcu]
            rw [hrw]
            exact ih _ _ hinv hle
        | false =>
          have hrw : faucetStep env maxA (.getPow (some sol)) c (f + 1) =
              faucetStep env maxA (.submitP sol)
                ⟨c.powCalls, c.staleCalls + 1, c.submitCalls, c.attempts, c.successes⟩ f := by
            simp [faucetStep, hst]
          rw [hrw]
          exact ih _ _ hinv hle
    | submitP sol =>
      cases hsc : env.submitSuccess c.submitCalls with
      | false =>
        have hcount : countSucc env (c.submitCalls + 1) = countSucc env c.submitCalls := by
          simp [countSucc, countTrue, hsc]
        by_cases hatt : c.attempts = maxA
        · have hrw : faucetStep env maxA (.submitP sol) c (f + 1) =
              (some (false, "Max attempts reached: " ++ toString maxA),
                ⟨c.powCalls, c.staleCalls, c.submitCalls + 1, c.attempts, c.successes⟩) := by
            simp [faucetStep, hsc, hatt]
          rw [hrw]
          exact ⟨by dsimp; omega, by simp, fun m hm => by simp at hm⟩
        · have hrw : faucetStep env maxA (.submitP sol) c (f + 1) =
              faucetStep env maxA (.getPow none)
                ⟨c.powCalls, c.staleCalls, c.submitCalls + 1, c.attempts + 1, c.successes⟩ f := by
            simp [faucetStep, hsc, hatt]
          rw [hrw]
          exact ih _ _ (by dsimp; omega) (by dsimp; omega)
      | true =>
        have hcount : countSucc env (c.submitCalls + 1) = countSucc env c.submitCalls + 1 := by
          simp [countSucc, countTrue, hsc]
        by_cases hsucc : c.successes = 3
        · have hrw : faucetStep env maxA (.submitP sol) c (f + 1) =
              (some (true, "Max successes reached: 3"),
                ⟨c.powCalls, c.staleCalls, c.submitCalls + 1, c.attempts, c.successes⟩) := by
            simp [faucetStep, hsc, hsucc]
          rw [hrw]
          refine ⟨by dsimp; omega, by simp, fun m hm => ?_⟩
          simp only [Option.some.injEq, Prod.mk.injEq, true_and] at hm
          exact ⟨hm.symm, by dsimp; omega⟩
        · have hrw : faucetStep env maxA (.submitP sol) c (f + 1) =
              faucetStep env maxA (.getPow none)
                ⟨c.powCalls, c.staleCalls, c.submitCalls + 1, c.attempts, c.successes + 1⟩ f := by
            simp [faucetStep, hsc, hsucc]
          rw [hrw]
          exact ih _ _ (by dsimp; omega) (by dsimp; omega)

/-- C8: in every faucet run, at most 3 submissions ever succeed; a run
that is still looping has had at most 2 successes, so the loop terminates
immediately upon the 3rd successful reward submission and never performs a
4th; and a run that returns overall success from the loop does so with the
max-successes message after exactly 3 successful submissions. -/
theorem faucet_stops_at_third_success (env : FaucetEnv) (maxA fuel : Nat) :
    countSucc env (run_faucet_extrinsic env maxA fuel).2.submitCalls ≤ 3 ∧
    ((run_faucet_extrinsic env maxA fuel).1 = none →
      countSucc env (run_faucet_extrinsic env maxA fuel).2.submitCalls ≤ 2) ∧
    (∀ m, (run_faucet_extrinsic env maxA fuel).1 = some (true, m) →
      m = "Max successes reached: 3" ∧
      countSucc env (run_faucet_extrinsic env maxA fuel).2.submitCalls = 3) := by
  unfold run_faucet_extrinsic
  cases h1 : (env.prompt && !env.confirmAns) with
  | true => simp [h1, countSucc, countTrue, faucetInit]
  | false =>
    cases h2 : env.torchAvailable with
    | false => simp [h1, h2, countSucc, countTrue, faucetInit]
    | true =>
      simpa [h1, h2] using
        faucetStep_success_bound env maxA fuel (.getPow none) faucetInit
          (by simp [faucetInit, countSucc, countTrue]) (by simp [faucetInit])

/-- Witness: the third-success theorem at the concrete all-success faucet
environment, extracting that its run stops with the max-successes message
after exactly 3 successful submissions. -/
theorem faucet_stops_at_third_success_witness :
    countSucc allSuccessFaucetEnv
        (run_faucet_extrinsic allSuccessFaucetEnv 3 40).2.submitCalls ≤ 3 ∧
      countSucc allSuccessFaucetEnv
        (run_faucet_extrinsic allSuccessFaucetEnv 3 40).2.submitCalls = 3 := by
  have h := faucet_stops_at_third_success allSuccessFaucetEnv 3 40
  exact ⟨h.1, (h.2.2 "Max successes reached: 3" (by rfl)).2⟩

/-- Helper: with the CUDA early exit excluded and a ceiling of at least 1,
the faucet loop keeps `attempts` equal to one plus the number of failed
submissions so far — the counter is never reset by a success — and the
only failure exit from the loop is the max-attempts one, which fires
exactly when the cumulative (not necessarily consecutive) failure count
reaches the ceiling. -/
theorem faucetStep_failure_ceiling (env : FaucetEnv) (maxA : Nat)
    (hcuda : (env.cuda && !env.cudaAvailable) = false) :
    ∀ fuel ph c,
      c.attempts = countFail env c.submitCalls + 1 →
      c.attempts ≤ maxA →
      (∀ m, (faucetStep env maxA ph c fuel).1 = some (false, m) →
        m = "Max attempts reached: " ++ toString maxA ∧
        countFail env (faucetStep env maxA ph c fuel).2.submitCalls = maxA) ∧
      ((faucetStep env maxA ph c fuel).1 = none →
        countFail env (faucetStep env maxA ph c fuel).2.submitCalls < maxA) := by
  intro fuel
  induction fuel with
  | zero =>
    intro ph c hinv hle
    have h0 : faucetStep env maxA ph c 0 = (none, c) := by
      cases ph with
      | getPow cur => cases cur <;> rfl
      | submitP sol => rfl
    rw [h0]
    exact ⟨fun m hm => by simp at hm, fun _ => by dsimp; omega⟩
  | succ f ih =>
    intro ph c hinv hle
    cases ph with
    | getPow cur =>
      cases cur with
      | none =>
        have hrw : faucetStep env maxA (.getPow none) c (f + 1) =
            faucetStep env maxA (.getPow (env.pow c.powCalls))
              ⟨c.powCalls + 1, c.staleCalls, c.submitCalls, c.attempts, c.successes⟩ f := by
          simp [faucetStep, hcuda]
        rw [hrw]
        exact ih _ _ hinv hle
      | some sol =>
        cases hst : env.stale c.staleCalls with
        | true =>
          have hrw : faucetStep env maxA (.getPow (some sol)) c (f + 1) =
              faucetStep env maxA (.getPow (env.pow c.powCalls))
                ⟨c.powCalls + 1, c.staleCalls + 1, c.submitCalls, c.attempts, c.successes⟩ f := by
            simp [faucetStep, hst, hcuda]
          rw [hrw]
          exact ih _ _ hinv hle
        | false =>
          have hrw : faucetStep env maxA (.getPow (some sol)) c (f + 1) =
              faucetStep env maxA (.submitP sol)
                ⟨c.powCalls, c.staleCalls + 1, c.submitCalls, c.attempts, c.successes⟩ f := by
            simp [faucetStep, hst]
          rw [hrw]
          exact ih _ _ hinv hle
    | submitP sol =>
      cases hsc : env.submitSuccess c.submitCalls with
      | false =>
        have hcount : countFail env (c.submitCalls + 1) = countFail env c.submitCalls + 1 := by
          simp [countFail, countTrue, hsc]
        by_cases hatt : c.attempts = maxA
        · have hrw : faucetStep env maxA (.submitP sol) c (f + 1) =
              (some (false, "Max attempts reached: " ++ toString maxA),
                ⟨c.powCalls, c.staleCalls, c.submitCalls + 1, c.attempts, c.successes⟩) := by
            simp [faucetStep, hsc, hatt]
          rw [hrw]
          refine ⟨fun m hm => ?_, by simp⟩
          simp only [Option.some.injEq, Prod.mk.injEq, true_and] at hm
          exact ⟨hm.symm, by dsimp; omega⟩
        · have hrw : faucetStep env maxA (.submitP sol) c (f + 1) =
              faucetStep env maxA (.getPow none)
                ⟨c.powCalls, c.staleCalls, c.submitCalls + 1, c.attempts + 1, c.successes⟩ f := by
            simp [faucetStep, hsc, hatt]
          rw [hrw]
          exact ih _ _ (by dsimp; omega) (by dsimp; omega)
      | true =>
        have hcount : countFail env (c.submitCalls + 1) = countFail env c.submitCalls := by
          simp [countFail, countTrue, hsc]
        by_cases hsucc : c.successes = 3
        · have hrw : faucetStep env maxA (.submitP sol) c (f + 1) =
              (some (true, "Max successes reached: 3"),
                ⟨c.powCalls, c.staleCalls, c.submitCalls + 1, c.attempts, c.successes⟩) := by
            simp [faucetStep, hsc, hsucc]
          rw [hrw]
          exact ⟨fun m hm => by simp at hm, by simp⟩
        · have hrw : faucetStep env maxA (.submitP sol) c (f + 1) =
              faucetStep env maxA (.getPow none)
                ⟨c.powCalls, c.staleCalls, c.submitCalls + 1, c.attempts, c.successes + 1⟩ f := by
            simp [faucetStep, hsc, hsucc]
          rw [hrw]
          exact ih _ _ (by dsimp; omega) (by dsimp; omega)

/-- C9 corrected: the faucet attempt ceiling bounds cumulative, not
consecutive, submission failures.  In a run that passes the prompt and
torch checks and cannot hit the CUDA exit, a failure result from the loop
is always the max-attempts exit and fires exactly when the total number of
failed submissions — successes in between notwithstanding — reaches
`maxA`; while the run is still looping the cumulative failure count is
below `maxA`. -/
theorem faucet_cumulative_failure_ceiling (env : FaucetEnv) (maxA fuel : Nat)
    (h1 : (env.prompt && !env.confirmAns) = false)
    (h2 : env.torchAvailable = true)
    (hcuda : (env.cuda && !env.cudaAvailable) = false)
    (hmax : 1 ≤ maxA) :
    (∀ m, (run_faucet_extrinsic env maxA fuel).1 = some (false, m) →
      m = "Max attempts reached: " ++ toString maxA ∧
      countFail env (run_faucet_extrinsic env maxA fuel).2.submitCalls = maxA) ∧
    ((run_faucet_extrinsic env maxA fuel).1 = none →
      countFail env (run_faucet_extrinsic env maxA fuel).2.submitCalls < maxA) := by
  have hrw : run_faucet_extrinsic env maxA fuel =
      faucetStep env maxA (.getPow none) faucetInit fuel := by
    simp [run_faucet_extrinsic, h1, h2]
  rw [hrw]
  exact faucetStep_failure_ceiling env maxA hcuda fuel (.getPow none) faucetInit
    (by simp [faucetInit, countFail, countTrue]) (by simp [faucetInit]; omega)

/-- Witness: the cumulative-ceiling theorem at the concrete
fail-succeed-fail faucet environment with ceiling 2; the failure exit
fires with 2 cumulative failures even though they are not consecutive. -/
theorem faucet_cumulative_failure_ceiling_witness :
    countFail mixedFailFaucetEnv
        (run_faucet_extrinsic mixedFailFaucetEnv 2 40).2.submitCalls = 2 := by
  have h := faucet_cumulative_failure_ceiling mixedFailFaucetEnv 2 40
    rfl rfl rfl (by omega)
  exact (h.1 "Max attempts reached: 2" (by rfl)).2
